import Mathlib

/-!
Verification development for the gRPC server-reflection resolver
(`reflection/serverreflection.go`).

The Go file is shallowly embedded below.  Machine state (the three cache
maps of `serverReflectionServer`) is passed explicitly; Go maps are
modelled as association lists where assignment prepends an entry and
lookup takes the first match, which gives Go's overwrite semantics
observationally.  The external collaborators (the protobuf registry,
the gzip decompressor, the service-metadata store of `grpc.Server`)
are out of scope of the repository and are abstracted as an `Env`
record of pure lookup functions, one field per collaborator operation
used by the source.
-/

namespace ServerReflection

/-- Models `reflect.Type` as used by the source: an opaque, comparable,
process-stable identity of a schema message type. -/
abbrev RType : Type := Nat

/-- Byte strings (`[]byte`). -/
abbrev Bytes : Type := List Nat

/-- Models a decoded `*dpb.FileDescriptorProto` as an opaque immutable
value; the embedding never inspects its structure, only compares it. -/
abbrev FileDescriptorProto : Type := Nat

/-- Result of `s.s.Metadata(name)`: the `interface\x7b\x7d` value may be
a byte slice (the only case the source uses) or something else, in which
case the `meta.([]byte)` type assertion fails. -/
inductive MetaVal : Type
  | bytes (b : Bytes)
  | other
deriving DecidableEq

/-- The external collaborators of the resolver, one pure function per
operation the Go source invokes outside this repository. -/
structure Env : Type where
  /-- `proto.MessageType(name).Elem()`: the registered pointer type for a
  fully-qualified name, already dereferenced to the element type; `none`
  models a `nil` result of `proto.MessageType`. -/
  messageType : String → Option RType
  /-- The `protoMessage` type assertion plus the `Descriptor()` call of
  `fileDescForType`: for a type that implements the interface, the gzipped
  encoded file descriptor and the index path; `none` models a failed
  assertion. -/
  descriptorOf : RType → Option (Bytes × List Nat)
  /-- The `proto.Message` type assertion used by
  `fileDescContainingExtension` and `allExtensionNumbersForType`. -/
  asProtoMessage : RType → Bool
  /-- `proto.RegisteredExtensions(m)`: the map from extension number to
  extension descriptor, with each descriptor reduced to the element type
  of its `ExtensionType` field (which is all the source reads from it).
  Keys of a Go map are unique. -/
  registeredExtensions : RType → List (Int × RType)
  /-- `proto.FileDescriptor(filename)`: the gzipped encoded descriptor
  registered for a file name, or `none` for `nil`. -/
  fileDescriptorEnc : String → Option Bytes
  /-- `s.s.Metadata(name)` on the `grpc.Server`: the service metadata
  value, or `none` for `nil`. -/
  metadata : String → Option MetaVal
  /-- The gzip decompression primitive used by `decompress`; `none`
  models the reader-construction or read error paths, both of which make
  `decompress` return `nil`. -/
  gunzip : Bytes → Option Bytes
  /-- `proto.Unmarshal(raw, fd)` producing a decoded descriptor, or the
  error message. -/
  unmarshal : Bytes → Except String FileDescriptorProto
  /-- `proto.Marshal(fd)`. -/
  marshal : FileDescriptorProto → Except String Bytes

/-- First-match lookup in an association list; with `mapInsert` below it
models a Go map. -/
def mapLookup {α β : Type} [DecidableEq α] (k : α) : List (α × β) → Option β
  | [] => none
  | (k', v) :: m => if k = k' then some v else mapLookup k m

/-- Go map assignment `m[k] = v`, modelled as prepending: the new entry
shadows any older one under `mapLookup`. -/
def mapInsert {α β : Type} (k : α) (v : β) (m : List (α × β)) : List (α × β) :=
  (k, v) :: m

@[simp] theorem mapLookup_nil {α β : Type} [DecidableEq α] (k : α) :
    mapLookup k ([] : List (α × β)) = none := rfl

@[simp] theorem mapLookup_cons {α β : Type} [DecidableEq α] (k k' : α) (v : β)
    (m : List (α × β)) :
    mapLookup k ((k', v) :: m) = if k = k' then some v else mapLookup k m := rfl

/-- The mutable state of `serverReflectionServer`: its three cache maps.
The unused `mu sync.Mutex` field and the `*grpc.Server` handle (whose
only use, `Metadata`, lives in `Env`) are not part of the cache state. -/
structure SrvState : Type where
  typeToNameMap : List (RType × String)
  nameToTypeMap : List (String × RType)
  typeToFileDescMap : List (RType × FileDescriptorProto)
deriving DecidableEq

/-- The state `InstallOnServer` creates: three empty maps. -/
def initState : SrvState :=
  { typeToNameMap := [], nameToTypeMap := [], typeToFileDescMap := [] }

/-- `decompress(b)`: gzip-decompress, `none` on any error (the source
prints the error and returns `nil` in both failure branches). -/
def decompress (env : Env) (b : Bytes) : Option Bytes :=
  env.gunzip b

/-- `decodeFileDesc(enc)`: decompress, then `proto.Unmarshal` into a
`FileDescriptorProto`. -/
def decodeFileDesc (env : Env) (enc : Bytes) : Except String FileDescriptorProto :=
  match decompress env enc with
  | none => .error "failed to decompress enc"
  | some raw =>
    match env.unmarshal raw with
    | .error e => .error ("bad descriptor: " ++ e)
    | .ok fd => .ok fd

/-- `fileDescForType(st)`: recover `(enc, idxs)` from the type via the
`protoMessage` interface, then return the cached descriptor if present,
otherwise decode and cache. -/
def fileDescForType (env : Env) (s : SrvState) (st : RType) :
    Except String (FileDescriptorProto × List Nat) × SrvState :=
  match env.descriptorOf st with
  | none => (.error ("failed to create message from type: " ++ toString st), s)
  | some (enc, idxs) =>
    match mapLookup st s.typeToFileDescMap with
    | some fd => (.ok (fd, idxs), s)
    | none =>
      match decodeFileDesc env enc with
      | .error e => (.error e, s)
      | .ok fd =>
        (.ok (fd, idxs),
         { s with typeToFileDescMap := mapInsert st fd s.typeToFileDescMap })

/-- `typeForName(name)`: cache lookup, else `proto.MessageType`; on a
fresh hit both name maps gain the matched pair, and the file-descriptor
cache is eagerly populated, with any error from that eager population
discarded. -/
def typeForName (env : Env) (s : SrvState) (name : String) :
    Except String RType × SrvState :=
  match mapLookup name s.nameToTypeMap with
  | some st => (.ok st, s)
  | none =>
    match env.messageType name with
    | none => (.error ("unknown type: " ++ name), s)
    | some st =>
      match fileDescForType env
          { s with typeToNameMap := mapInsert st name s.typeToNameMap,
                   nameToTypeMap := mapInsert name st s.nameToTypeMap } st with
      | (.ok (fd, _), s2) =>
        (.ok st, { s2 with typeToFileDescMap := mapInsert st fd s2.typeToFileDescMap })
      | (.error _, s2) => (.ok st, s2)

/-- `fileDescContainingExtension(st, ext)`: scan the registered
extensions of the type for the requested number, then resolve the
extension value type via cache-or-decode. -/
def fileDescContainingExtension (env : Env) (s : SrvState) (st : RType) (ext : Int) :
    Except String FileDescriptorProto × SrvState :=
  if env.asProtoMessage st then
    match (env.registeredExtensions st).find? (fun p => p.1 == ext) with
    | none =>
      (.error ("failed to find registered extension for extension number " ++ toString ext), s)
    | some (_, extT) =>
      match mapLookup extT s.typeToFileDescMap with
      | some fd => (.ok fd, s)
      | none =>
        match fileDescForType env s extT with
        | (.ok (fd, _), s') => (.ok fd, s')
        | (.error e, s') => (.error e, s')
  else (.error ("failed to create message from type: " ++ toString st), s)

/-- `allExtensionNumbersForType(st)`: collect the numbers of all
registered extensions of the type. -/
def allExtensionNumbersForType (env : Env) (s : SrvState) (st : RType) :
    Except String (List Int) × SrvState :=
  if env.asProtoMessage st then
    (.ok ((env.registeredExtensions st).map Prod.fst), s)
  else (.error ("failed to create message from type: " ++ toString st), s)

/-- `fileDescWireFormatByFilename(name)`: registry lookup by file name,
decode, re-marshal to wire format.  No caching on this path. -/
def fileDescWireFormatByFilename (env : Env) (s : SrvState) (name : String) :
    Except String Bytes × SrvState :=
  match env.fileDescriptorEnc name with
  | none => (.error ("unknown file: " ++ name), s)
  | some enc =>
    match decodeFileDesc env enc with
    | .error e => (.error e, s)
    | .ok fd =>
      match env.marshal fd with
      | .error e => (.error e, s)
      | .ok b => (.ok b, s)

/-- `fileDescWireFormatContainingSymbol(name)`: try the name as a type
name first; only on failure of that, consult the service metadata store;
marshal whatever descriptor was found, else report an unknown symbol. -/
def fileDescWireFormatContainingSymbol (env : Env) (s : SrvState) (name : String) :
    Except String Bytes × SrvState :=
  match typeForName env s name with
  | (.ok st, s1) =>
    match fileDescForType env s1 st with
    | (.error e, s2) => (.error e, s2)
    | (.ok (fd, _), s2) =>
      match env.marshal fd with
      | .error e => (.error e, s2)
      | .ok b => (.ok b, s2)
  | (.error _, s1) =>
    match env.metadata name with
    | some (.bytes enc) =>
      match decodeFileDesc env enc with
      | .error e => (.error e, s1)
      | .ok fd =>
        match env.marshal fd with
        | .error e => (.error e, s1)
        | .ok b => (.ok b, s1)
    | some .other => (.error ("unknown symbol: " ++ name), s1)
    | none => (.error ("unknown symbol: " ++ name), s1)

/-- `fileDescWireFormatContainingExtension(typeName, extNum)`. -/
def fileDescWireFormatContainingExtension (env : Env) (s : SrvState)
    (typeName : String) (extNum : Int) : Except String Bytes × SrvState :=
  match typeForName env s typeName with
  | (.error e, s1) => (.error e, s1)
  | (.ok st, s1) =>
    match fileDescContainingExtension env s1 st extNum with
    | (.error e, s2) => (.error e, s2)
    | (.ok fd, s2) =>
      match env.marshal fd with
      | .error e => (.error e, s2)
      | .ok b => (.ok b, s2)

/-- `allExtensionNumbersForTypeName(name)`. -/
def allExtensionNumbersForTypeName (env : Env) (s : SrvState) (name : String) :
    Except String (List Int) × SrvState :=
  match typeForName env s name with
  | (.error e, s1) => (.error e, s1)
  | (.ok st, s1) =>
    match allExtensionNumbersForType env s1 st with
    | (.error e, s2) => (.error e, s2)
    | (.ok extNums, s2) => (.ok extNums, s2)

/-- The oneof `ServerReflectionRequest.MessageRequest`.  The
`unrecognized` constructor models the `default` case of the dispatch
switch: a `nil` or unknown variant. -/
inductive MessageRequest : Type
  | fileByFilename (name : String)
  | fileContainingSymbol (name : String)
  | fileContainingExtension (containingType : String) (extensionNumber : Int)
  | allExtensionNumbersOfType (name : String)
  | listServices
  | unrecognized
deriving DecidableEq

/-- An inbound `ServerReflectionRequest`. -/
structure ServerReflectionRequest : Type where
  host : String
  messageRequest : MessageRequest
deriving DecidableEq

/-- The oneof `ServerReflectionResponse.MessageResponse`. -/
inductive MessageResponse : Type
  | fileDescriptorResponse (fileDescriptorProto : List Bytes)
  | allExtensionNumbersResponse (baseTypeName : String) (extensionNumber : List Int)
  | errorResponse (errorCode : Int) (errorMessage : String)
deriving DecidableEq

/-- An outbound `ServerReflectionResponse`. -/
structure ServerReflectionResponse : Type where
  validHost : String
  originalRequest : ServerReflectionRequest
  messageResponse : MessageResponse
deriving DecidableEq

/-- `codes.InvalidArgument`. -/
def codeInvalidArgument : Int := 3

/-- `codes.NotFound`. -/
def codeNotFound : Int := 5

/-- `codes.Unimplemented`. -/
def codeUnimplemented : Int := 12

/-- The message of the `grpc.Errorf` return in the `default` case of the
dispatch switch (`"invalid MessageRequest: %v"` formatted with the
unrecognized variant). -/
def invalidRequestMsg : String := "invalid MessageRequest: <nil>"

/-- One iteration of the `ServerReflectionInfo` loop body after a
successful `Recv`: the `switch in.MessageRequest` dispatch.  `.ok out`
is the response passed to `Send`; `.error (code, msg)` is the
`grpc.Errorf` return of the `default` case, which terminates the
session. -/
def handleRequest (env : Env) (s : SrvState) (inp : ServerReflectionRequest) :
    Except (Int × String) ServerReflectionResponse × SrvState :=
  match inp.messageRequest with
  | .fileByFilename name =>
    match fileDescWireFormatByFilename env s name with
    | (.error e, s') =>
      (.ok { validHost := inp.host, originalRequest := inp,
             messageResponse := .errorResponse codeNotFound e }, s')
    | (.ok b, s') =>
      (.ok { validHost := inp.host, originalRequest := inp,
             messageResponse := .fileDescriptorResponse [b] }, s')
  | .fileContainingSymbol name =>
    match fileDescWireFormatContainingSymbol env s name with
    | (.error e, s') =>
      (.ok { validHost := inp.host, originalRequest := inp,
             messageResponse := .errorResponse codeNotFound e }, s')
    | (.ok b, s') =>
      (.ok { validHost := inp.host, originalRequest := inp,
             messageResponse := .fileDescriptorResponse [b] }, s')
  | .fileContainingExtension typeName extNum =>
    match fileDescWireFormatContainingExtension env s typeName extNum with
    | (.error e, s') =>
      (.ok { validHost := inp.host, originalRequest := inp,
             messageResponse := .errorResponse codeNotFound e }, s')
    | (.ok b, s') =>
      (.ok { validHost := inp.host, originalRequest := inp,
             messageResponse := .fileDescriptorResponse [b] }, s')
  | .allExtensionNumbersOfType name =>
    match allExtensionNumbersForTypeName env s name with
    | (.error e, s') =>
      (.ok { validHost := inp.host, originalRequest := inp,
             messageResponse := .errorResponse codeNotFound e }, s')
    | (.ok extNums, s') =>
      (.ok { validHost := inp.host, originalRequest := inp,
             messageResponse := .allExtensionNumbersResponse name extNums }, s')
  | .listServices =>
    (.ok { validHost := inp.host, originalRequest := inp,
           messageResponse :=
             .errorResponse codeUnimplemented "list_services not implemented" }, s)
  | .unrecognized =>
    (.error (codeInvalidArgument, invalidRequestMsg), s)

/-- The `ServerReflectionInfo` session loop on a run where the transport
itself never fails: the inbound stream is the given list of requests
(`io.EOF` after the last).  Returns the outbound responses in order, the
final cache state, and `some (code, msg)` when the loop returned the
`grpc.Errorf` of the `default` case (in which case no response is
emitted for the offending request and the remaining inbound requests are
never read), or `none` for the clean `io.EOF` return. -/
def serverReflectionInfo (env : Env) :
    SrvState → List ServerReflectionRequest →
    List ServerReflectionResponse × SrvState × Option (Int × String)
  | s, [] => ([], s, none)
  | s, inp :: rest =>
    match handleRequest env s inp with
    | (.error e, s1) => ([], s1, some e)
    | (.ok out, s1) =>
      match serverReflectionInfo env s1 rest with
      | (outs, s2, term) => (out :: outs, s2, term)

/-! ### A concrete environment used by the closed witness theorems -/

/-- A small concrete collaborator environment: one registered message
type (`"pkg.M"`, identity `1`), carrying one extension of number `100`
whose value type is `2`; identity `3` is a message type with no
registered extensions; one registered file `"a.proto"`; one service
`"svc"` with byte-slice metadata.  The blob `[10]` gunzips to `[11]`
which unmarshals to descriptor `42`; the blob `[12]` gunzips to `[13]`
which fails to unmarshal; every other blob fails to gunzip.  The name
`"pkg.Bad"` resolves to identity `4`, whose encoded descriptor is the
undecodable blob `[12]`; the service `"badsvc"` has byte-slice metadata
that is likewise the undecodable blob `[12]`. -/
def demoEnv : Env where
  messageType := fun n =>
    if n = "pkg.M" then some 1 else if n = "pkg.Bad" then some 4 else none
  descriptorOf := fun t =>
    if t = 1 then some ([10], [0]) else if t = 2 then some ([10], [1])
    else if t = 4 then some ([12], [0]) else none
  asProtoMessage := fun t => decide (1 ≤ t ∧ t ≤ 3)
  registeredExtensions := fun t => if t = 1 then [(100, 2)] else []
  fileDescriptorEnc := fun n => if n = "a.proto" then some [10] else none
  metadata := fun n =>
    if n = "svc" then some (.bytes [10])
    else if n = "badsvc" then some (.bytes [12]) else none
  gunzip := fun b => if b = [10] then some [11] else if b = [12] then some [13] else none
  unmarshal := fun b => if b = [11] then .ok 42 else .error "cannot parse"
  marshal := fun fd => .ok [fd]

/-! ### C7: the decoder is all-or-nothing -/

/-- C7: `decodeFileDesc` returns either a fully decoded descriptor or an
error, never a partial result: decompression failure yields the decode
error with no descriptor; successful decompression followed by a failed
deserialization likewise yields a decode error with no descriptor; and a
successful result is exactly the deserialization of the decompressed
bytes. -/
theorem decodeFileDesc_all_or_nothing (env : Env) (enc : Bytes) :
    (decompress env enc = none →
      decodeFileDesc env enc = .error "failed to decompress enc") ∧
    (∀ raw e, decompress env enc = some raw → env.unmarshal raw = .error e →
      decodeFileDesc env enc = .error ("bad descriptor: " ++ e)) ∧
    (∀ fd, decodeFileDesc env enc = .ok fd →
      ∃ raw, decompress env enc = some raw ∧ env.unmarshal raw = .ok fd) := by
  refine ⟨fun h => ?_, fun raw e h1 h2 => ?_, fun fd h => ?_⟩
  · simp only [decodeFileDesc, h]
  · simp only [decodeFileDesc, h1, h2]
  · rcases hx : decompress env enc with _ | raw
    · simp only [decodeFileDesc, hx] at h
      exact Except.noConfusion h
    · refine ⟨raw, rfl, ?_⟩
      rcases hu : env.unmarshal raw with e | fd'
      · simp only [decodeFileDesc, hx, hu] at h
        exact Except.noConfusion h
      · simp only [decodeFileDesc, hx, hu] at h
        exact h

/-- Closed witness for C7 in the concrete environment: a blob that fails
to gunzip, and a blob that gunzips but fails to unmarshal. -/
theorem decodeFileDesc_all_or_nothing_witness :
    decodeFileDesc demoEnv [99] = .error "failed to decompress enc" ∧
    decodeFileDesc demoEnv [12] = .error ("bad descriptor: " ++ "cannot parse") :=
  ⟨(decodeFileDesc_all_or_nothing demoEnv [99]).1 rfl,
   (decodeFileDesc_all_or_nothing demoEnv [12]).2.1 [13] "cannot parse" rfl rfl⟩

/-! ### C8: zero registered extensions is a success -/

/-- C8: for a message type with zero registered extensions,
`allExtensionNumbersForType` returns the empty collection with no error
(and leaves the state untouched). -/
theorem allExtensionNumbersForType_empty (env : Env) (s : SrvState) (st : RType)
    (hm : env.asProtoMessage st = true)
    (hz : env.registeredExtensions st = []) :
    allExtensionNumbersForType env s st = (.ok [], s) := by
  unfold allExtensionNumbersForType
  rw [hm, hz]
  rfl

/-- Closed witness for C8: type `3` of the concrete environment is a
message type with no registered extensions. -/
theorem allExtensionNumbersForType_empty_witness :
    allExtensionNumbersForType demoEnv initState 3 = (.ok [], initState) :=
  allExtensionNumbersForType_empty demoEnv initState 3 (by decide) rfl

/-! ### C2: every handled response echoes the correlation fields -/

/-- C2: every response produced by the dispatch (any of the five
recognized request kinds, success or failure) sets `valid_host` to the
request's `host` and carries the inbound request itself, unmodified, as
`original_request`. -/
theorem handleRequest_echoes_correlation (env : Env) (s : SrvState)
    (inp : ServerReflectionRequest) (out : ServerReflectionResponse) (s' : SrvState)
    (h : handleRequest env s inp = (.ok out, s')) :
    out.validHost = inp.host ∧ out.originalRequest = inp := by
  unfold handleRequest at h
  cases inp with
  | mk host mr =>
    cases mr <;> simp only [] at h <;> (try split at h)
    all_goals injection h with h1 h2
    all_goals try exact Except.noConfusion h1
    all_goals injection h1 with h1
    all_goals subst h1
    all_goals exact ⟨rfl, rfl⟩

/-- Closed witness for C2 at the `list_services` request. -/
theorem handleRequest_echoes_correlation_witness :
    (ServerReflectionResponse.mk "h" ⟨"h", .listServices⟩
        (.errorResponse codeUnimplemented "list_services not implemented")).validHost
      = "h" ∧
    (ServerReflectionResponse.mk "h" ⟨"h", .listServices⟩
        (.errorResponse codeUnimplemented "list_services not implemented")).originalRequest
      = ⟨"h", .listServices⟩ :=
  handleRequest_echoes_correlation demoEnv initState ⟨"h", .listServices⟩ _ initState rfl

/-! ### C3: an unrecognized request kind terminates the session -/

/-- C3: an inbound request whose kind is not one of the five recognized
kinds makes the dispatch return the invalid-argument failure instead of
a response, with the state untouched, and makes the session loop return
immediately: no response is emitted for that request and later requests
are never processed. -/
theorem invalid_request_terminates_session (env : Env) (s : SrvState) (host : String)
    (rest : List ServerReflectionRequest) :
    handleRequest env s { host := host, messageRequest := .unrecognized }
      = (.error (codeInvalidArgument, invalidRequestMsg), s) ∧
    serverReflectionInfo env s ({ host := host, messageRequest := .unrecognized } :: rest)
      = ([], s, some (codeInvalidArgument, invalidRequestMsg)) :=
  ⟨rfl, rfl⟩

/-! ### C1: per-request failures become error responses, the loop goes on -/

/-- C1: whenever resolution of a recognized request fails, the dispatch
still produces a response: the four lookup kinds turn any resolver error
into an error response carrying the not-found code, a list-services
request always gets an error response carrying the unimplemented code,
and for every dispatched response the session loop emits it and
continues with the remaining inbound requests instead of returning. -/
theorem session_error_responses (env : Env) (s : SrvState) (host : String) :
    (∀ name e, (fileDescWireFormatByFilename env s name).1 = .error e →
      (handleRequest env s ⟨host, .fileByFilename name⟩).1 =
        .ok ⟨host, ⟨host, .fileByFilename name⟩, .errorResponse codeNotFound e⟩) ∧
    (∀ name e, (fileDescWireFormatContainingSymbol env s name).1 = .error e →
      (handleRequest env s ⟨host, .fileContainingSymbol name⟩).1 =
        .ok ⟨host, ⟨host, .fileContainingSymbol name⟩, .errorResponse codeNotFound e⟩) ∧
    (∀ typeName extNum e,
      (fileDescWireFormatContainingExtension env s typeName extNum).1 = .error e →
      (handleRequest env s ⟨host, .fileContainingExtension typeName extNum⟩).1 =
        .ok ⟨host, ⟨host, .fileContainingExtension typeName extNum⟩,
             .errorResponse codeNotFound e⟩) ∧
    (∀ name e, (allExtensionNumbersForTypeName env s name).1 = .error e →
      (handleRequest env s ⟨host, .allExtensionNumbersOfType name⟩).1 =
        .ok ⟨host, ⟨host, .allExtensionNumbersOfType name⟩,
             .errorResponse codeNotFound e⟩) ∧
    ((handleRequest env s ⟨host, .listServices⟩).1 =
      .ok ⟨host, ⟨host, .listServices⟩,
           .errorResponse codeUnimplemented "list_services not implemented"⟩) ∧
    (∀ inp out s1 rest, handleRequest env s inp = (.ok out, s1) →
      serverReflectionInfo env s (inp :: rest) =
        (out :: (serverReflectionInfo env s1 rest).1,
         (serverReflectionInfo env s1 rest).2.1,
         (serverReflectionInfo env s1 rest).2.2)) := by
  refine ⟨fun name e h => ?_, fun name e h => ?_, fun typeName extNum e h => ?_,
          fun name e h => ?_, rfl, fun inp out s1 rest h => ?_⟩
  · rcases hh : fileDescWireFormatByFilename env s name with ⟨r, s'⟩
    rw [hh] at h
    simp only at h
    subst h
    simp only [handleRequest, hh]
  · rcases hh : fileDescWireFormatContainingSymbol env s name with ⟨r, s'⟩
    rw [hh] at h
    simp only at h
    subst h
    simp only [handleRequest, hh]
  · rcases hh : fileDescWireFormatContainingExtension env s typeName extNum with ⟨r, s'⟩
    rw [hh] at h
    simp only at h
    subst h
    simp only [handleRequest, hh]
  · rcases hh : allExtensionNumbersForTypeName env s name with ⟨r, s'⟩
    rw [hh] at h
    simp only at h
    subst h
    simp only [handleRequest, hh]
  · rcases hr : serverReflectionInfo env s1 rest with ⟨outs, s2, term⟩
    simp only [serverReflectionInfo, h, hr]

/-- Closed witness for C1: an unknown file name gets a not-found error
response, list-services gets the unimplemented error response, and the
session loop emits the response and terminates only at end-of-stream. -/
theorem session_error_responses_witness :
    (handleRequest demoEnv initState ⟨"h", .fileByFilename "nope"⟩).1 =
      .ok ⟨"h", ⟨"h", .fileByFilename "nope"⟩,
           .errorResponse codeNotFound "unknown file: nope"⟩ ∧
    (handleRequest demoEnv initState ⟨"h", .listServices⟩).1 =
      .ok ⟨"h", ⟨"h", .listServices⟩,
           .errorResponse codeUnimplemented "list_services not implemented"⟩ ∧
    serverReflectionInfo demoEnv initState [⟨"h", .listServices⟩] =
      ([⟨"h", ⟨"h", .listServices⟩,
          .errorResponse codeUnimplemented "list_services not implemented"⟩],
       initState, none) := by
  have t := session_error_responses demoEnv initState "h"
  exact ⟨t.1 "nope" "unknown file: nope" rfl, t.2.2.2.2.1,
    (t.2.2.2.2.2 ⟨"h", .listServices⟩ _ initState [] rfl).trans rfl⟩

/-! ### Structural lemmas about the resolver, shared by several claims -/

/-- `fileDescForType` never touches the two name maps. -/
theorem fileDescForType_nameMaps (env : Env) (s : SrvState) (st : RType) :
    ((fileDescForType env s st).2).typeToNameMap = s.typeToNameMap ∧
    ((fileDescForType env s st).2).nameToTypeMap = s.nameToTypeMap := by
  unfold fileDescForType
  repeat' split
  all_goals exact ⟨rfl, rfl⟩

/-- A successful `fileDescForType` call implies the `Descriptor()` data
existed for the type and leaves the returned descriptor in the cache. -/
theorem fileDescForType_ok (env : Env) (s : SrvState) (st : RType)
    (fd : FileDescriptorProto) (idxs : List Nat) (s' : SrvState)
    (h : fileDescForType env s st = (.ok (fd, idxs), s')) :
    ∃ enc, env.descriptorOf st = some (enc, idxs) ∧
      mapLookup st s'.typeToFileDescMap = some fd := by
  unfold fileDescForType at h
  rcases hd : env.descriptorOf st with _ | ⟨enc, idxs'⟩
  all_goals rw [hd] at h
  · simp only at h
    exact absurd h (by simp)
  · simp only at h
    refine ⟨enc, ?_⟩
    rcases hl : mapLookup st s.typeToFileDescMap with _ | fd0
    all_goals rw [hl] at h
    · rcases hdec : decodeFileDesc env enc with e | fd1
      all_goals rw [hdec] at h
      · simp only at h
        exact absurd h (by simp)
      · simp only [Prod.mk.injEq, Except.ok.injEq] at h
        obtain ⟨⟨hfd, hidx⟩, hs⟩ := h
        subst hfd; subst hidx; subst hs
        exact ⟨rfl, by simp [mapInsert, mapLookup_cons]⟩
    · simp only [Prod.mk.injEq, Except.ok.injEq] at h
      obtain ⟨⟨hfd, hidx⟩, hs⟩ := h
      subst hfd; subst hidx; subst hs
      exact ⟨rfl, hl⟩

/-- A failed `fileDescForType` call leaves the state untouched. -/
theorem fileDescForType_error_state (env : Env) (s : SrvState) (st : RType)
    (e : String) (s' : SrvState)
    (h : fileDescForType env s st = (.error e, s')) : s' = s := by
  unfold fileDescForType at h
  rcases hd : env.descriptorOf st with _ | ⟨enc, idxs⟩
  all_goals rw [hd] at h
  · simp only [Prod.mk.injEq] at h
    exact h.2.symm
  · simp only at h
    rcases hl : mapLookup st s.typeToFileDescMap with _ | fd0
    all_goals rw [hl] at h
    · rcases hdec : decodeFileDesc env enc with e' | fd1
      all_goals rw [hdec] at h
      · simp only [Prod.mk.injEq] at h
        exact h.2.symm
      · simp only [Prod.mk.injEq] at h
        exact absurd h.1 (by simp)
    · simp only [Prod.mk.injEq] at h
      exact absurd h.1 (by simp)

/-- The value component of `fileDescForType` depends on the state only
through the cache entry of the queried type. -/
theorem fileDescForType_fst_congr (env : Env) (s s' : SrvState) (st : RType)
    (h : mapLookup st s.typeToFileDescMap = mapLookup st s'.typeToFileDescMap) :
    (fileDescForType env s st).1 = (fileDescForType env s' st).1 := by
  unfold fileDescForType
  rcases hd : env.descriptorOf st with _ | ⟨enc, idxs⟩
  · rfl
  · simp only
    rw [h]
    rcases hl : mapLookup st s'.typeToFileDescMap with _ | fd0
    · rcases hdec : decodeFileDesc env enc with e | fd1 <;> rfl
    · rfl

/-- A successful `typeForName` call leaves the name hit in the
name-to-type cache of the resulting state. -/
theorem typeForName_ok_lookup (env : Env) (s : SrvState) (name : String)
    (st : RType) (s1 : SrvState)
    (h : typeForName env s name = (.ok st, s1)) :
    mapLookup name s1.nameToTypeMap = some st := by
  unfold typeForName at h
  rcases hl : mapLookup name s.nameToTypeMap with _ | st0
  all_goals rw [hl] at h
  · simp only at h
    rcases hm : env.messageType name with _ | st0
    all_goals rw [hm] at h
    · simp only [Prod.mk.injEq] at h
      exact absurd h.1 (by simp)
    · simp only at h
      rcases hf : fileDescForType env
          { s with typeToNameMap := mapInsert st0 name s.typeToNameMap,
                   nameToTypeMap := mapInsert name st0 s.nameToTypeMap } st0
        with ⟨r, s2⟩
      rw [hf] at h
      have hnm := (fileDescForType_nameMaps env
        { s with typeToNameMap := mapInsert st0 name s.typeToNameMap,
                 nameToTypeMap := mapInsert name st0 s.nameToTypeMap } st0).2
      rw [hf] at hnm
      rcases r with e | ⟨fd, idxs⟩
      · simp only [Prod.mk.injEq, Except.ok.injEq] at h
        obtain ⟨hst, hs⟩ := h
        subst hst; subst hs
        rw [hnm]
        simp [mapInsert, mapLookup_cons]
      · simp only [Prod.mk.injEq, Except.ok.injEq] at h
        obtain ⟨hst, hs⟩ := h
        subst hst; subst hs
        simp only
        rw [hnm]
        simp [mapInsert, mapLookup_cons]
  · simp only [Prod.mk.injEq, Except.ok.injEq] at h
    obtain ⟨hst, hs⟩ := h
    subst hst; subst hs
    exact hl

/-! ### C10: the eager cache population error is discarded -/

/-- C10: when the registry name lookup succeeds, `typeForName` succeeds
even though the eager population of the file-descriptor cache fails: the
decode error of the embedded `fileDescForType` call is discarded, the
file-descriptor cache entry of the type stays as it was, and a later
explicit `fileDescForType` call on the resulting state reports the very
same error. -/
theorem typeForName_ok_despite_fd_error (env : Env) (s : SrvState) (name : String)
    (st : RType) (e : String)
    (hmiss : mapLookup name s.nameToTypeMap = none)
    (hmt : env.messageType name = some st)
    (hfail : (fileDescForType env s st).1 = .error e) :
    (typeForName env s name).1 = .ok st ∧
    mapLookup st ((typeForName env s name).2).typeToFileDescMap
      = mapLookup st s.typeToFileDescMap ∧
    (fileDescForType env (typeForName env s name).2 st).1 = .error e := by
  have hcongr : ∀ s'' : SrvState,
      s''.typeToFileDescMap = s.typeToFileDescMap →
      (fileDescForType env s'' st).1 = .error e := fun s'' hs'' =>
    (fileDescForType_fst_congr env s'' s st (by rw [hs''])).trans hfail
  rcases hf : fileDescForType env
      { s with typeToNameMap := mapInsert st name s.typeToNameMap,
               nameToTypeMap := mapInsert name st s.nameToTypeMap } st
    with ⟨r, s2⟩
  have hr : r = .error e := by
    have := hcongr
      { s with typeToNameMap := mapInsert st name s.typeToNameMap,
               nameToTypeMap := mapInsert name st s.nameToTypeMap } rfl
    rw [hf] at this
    exact this
  subst hr
  have hs2 : s2 = { s with typeToNameMap := mapInsert st name s.typeToNameMap,
                           nameToTypeMap := mapInsert name st s.nameToTypeMap } :=
    fileDescForType_error_state env _ st e s2 hf
  have hty : typeForName env s name = (.ok st, s2) := by
    unfold typeForName
    rw [hmiss]
    simp only
    rw [hmt]
    simp only
    rw [hf]
  refine ⟨by rw [hty], ?_, ?_⟩
  · rw [hty]
    simp only
    rw [hs2]
  · rw [hty]
    simp only
    exact hcongr s2 (by rw [hs2])

/-- Closed witness for C10: the name of the concrete environment whose
descriptor blob is undecodable still resolves. -/
theorem typeForName_ok_despite_fd_error_witness :
    (typeForName demoEnv initState "pkg.Bad").1 = .ok 4 ∧
    mapLookup 4 ((typeForName demoEnv initState "pkg.Bad").2).typeToFileDescMap
      = mapLookup 4 initState.typeToFileDescMap ∧
    (fileDescForType demoEnv (typeForName demoEnv initState "pkg.Bad").2 4).1
      = .error ("bad descriptor: " ++ "cannot parse") :=
  typeForName_ok_despite_fd_error demoEnv initState "pkg.Bad" 4
    ("bad descriptor: " ++ "cannot parse") rfl rfl rfl

/-! ### C4: a second resolution of the same name is served from cache -/

/-- C4: once a type name has been resolved to a file descriptor, a
second resolution on the resulting state returns the identical
descriptor and changes nothing; the second call consults neither the
registry name lookup nor the decoder, which is expressed by running it
in any environment `env'` that agrees with the original one on the
reflective `Descriptor()` data alone — `messageType`, `gunzip` and
`unmarshal` may differ arbitrarily (in particular they may always
fail). -/
theorem second_resolution_from_cache (env env' : Env) (s s1 s2 : SrvState)
    (n : String) (st : RType) (fd : FileDescriptorProto) (idxs : List Nat)
    (h1 : typeForName env s n = (.ok st, s1))
    (h2 : fileDescForType env s1 st = (.ok (fd, idxs), s2))
    (hdesc : env'.descriptorOf = env.descriptorOf) :
    typeForName env' s2 n = (.ok st, s2) ∧
    fileDescForType env' s2 st = (.ok (fd, idxs), s2) := by
  obtain ⟨enc, hdo, hfd⟩ := fileDescForType_ok env s1 st fd idxs s2 h2
  have hnm : s2.nameToTypeMap = s1.nameToTypeMap := by
    have hx := (fileDescForType_nameMaps env s1 st).2
    rw [h2] at hx
    exact hx
  have hnl : mapLookup n s2.nameToTypeMap = some st := by
    rw [hnm]
    exact typeForName_ok_lookup env s n st s1 h1
  constructor
  · unfold typeForName
    rw [hnl]
  · unfold fileDescForType
    rw [hdesc, hdo]
    simp only
    rw [hfd]

/-- The concrete environment with a registry that fails every name
lookup and a decompressor that rejects every blob: used to witness that
the second resolution touches neither. -/
def failBothEnv : Env :=
  { demoEnv with messageType := fun _ => none, gunzip := fun _ => none }

/-- The cache state after `"pkg.M"` has been resolved once in the
concrete environment. -/
def cachedState : SrvState := (typeForName demoEnv initState "pkg.M").2

/-- Closed witness for C4: after the first resolution of `"pkg.M"`, the
second one succeeds with the same descriptor even though the registry
and the decompressor now fail on everything. -/
theorem second_resolution_from_cache_witness :
    typeForName failBothEnv cachedState "pkg.M" = (.ok 1, cachedState) ∧
    fileDescForType failBothEnv cachedState 1 = (.ok (42, [0]), cachedState) :=
  second_resolution_from_cache demoEnv failBothEnv initState cachedState cachedState
    "pkg.M" 1 42 [0] rfl rfl rfl

/-! ### C5: symbol lookup ordering -/

/-- A failed `typeForName` call leaves the state untouched. -/
theorem typeForName_error_state (env : Env) (s : SrvState) (name : String)
    (e : String) (s1 : SrvState)
    (h : typeForName env s name = (.error e, s1)) : s1 = s := by
  unfold typeForName at h
  rcases hl : mapLookup name s.nameToTypeMap with _ | st0
  all_goals rw [hl] at h
  · simp only at h
    rcases hm : env.messageType name with _ | st0
    all_goals rw [hm] at h
    · simp only [Prod.mk.injEq] at h
      exact h.2.symm
    · simp only at h
      rcases hf : fileDescForType env
          { s with typeToNameMap := mapInsert st0 name s.typeToNameMap,
                   nameToTypeMap := mapInsert name st0 s.nameToTypeMap } st0
        with ⟨r, s2⟩
      rw [hf] at h
      rcases r with e' | ⟨fd, idxs⟩ <;>
        simp only [Prod.mk.injEq] at h <;>
        exact absurd h.1 (by simp)
  · simp only [Prod.mk.injEq] at h
    exact absurd h.1 (by simp)

/-- `typeForName` never reads the service-metadata store. -/
theorem typeForName_metadata_congr (env : Env) (md : String → Option MetaVal)
    (s : SrvState) (name : String) :
    typeForName { env with metadata := md } s name = typeForName env s name := by
  cases env
  rfl

/-- `fileDescForType` never reads the service-metadata store. -/
theorem fileDescForType_metadata_congr (env : Env) (md : String → Option MetaVal)
    (s : SrvState) (st : RType) :
    fileDescForType { env with metadata := md } s st = fileDescForType env s st := by
  cases env
  rfl

/-- Changing the service-metadata store does not change `proto.Marshal`. -/
theorem marshal_metadata_congr (env : Env) (md : String → Option MetaVal) :
    ({ env with metadata := md } : Env).marshal = env.marshal := by
  cases env
  rfl

/-- C5 (amended): `fileDescWireFormatContainingSymbol` tries the name as
a type name first, and when that succeeds the service-metadata store is
never consulted (the result is unchanged under an arbitrary replacement
of the store); only when the type-name attempt fails is the store
queried; if it then yields no byte blob, the result is the
unknown-symbol error with no descriptor bytes, while if it yields a blob
whose decoding fails, the result is that decode error (not the
unknown-symbol error), again with no descriptor bytes; in both failing
cases the state is unchanged. -/
theorem symbol_resolution_order (env : Env) (s : SrvState) (name : String) :
    (∀ st s1, typeForName env s name = (.ok st, s1) →
      ∀ md, fileDescWireFormatContainingSymbol { env with metadata := md } s name
            = fileDescWireFormatContainingSymbol env s name) ∧
    (∀ e1, (typeForName env s name).1 = .error e1 →
      ((env.metadata name = none ∨ env.metadata name = some .other) →
        fileDescWireFormatContainingSymbol env s name
          = (.error ("unknown symbol: " ++ name), s)) ∧
      (∀ enc e, env.metadata name = some (.bytes enc) →
        decodeFileDesc env enc = .error e →
        fileDescWireFormatContainingSymbol env s name = (.error e, s))) := by
  constructor
  · intro st s1 h1 md
    unfold fileDescWireFormatContainingSymbol
    rw [typeForName_metadata_congr env md s name, h1]
    simp only
    rw [fileDescForType_metadata_congr env md s1 st, marshal_metadata_congr env md]
  · intro e1 h1
    rcases ht : typeForName env s name with ⟨r, s1⟩
    rw [ht] at h1
    simp only at h1
    subst h1
    have hs1 : s1 = s := typeForName_error_state env s name e1 s1 ht
    subst hs1
    refine ⟨fun hm => ?_, fun enc e hm hdec => ?_⟩
    · unfold fileDescWireFormatContainingSymbol
      rw [ht]
      simp only
      rcases hm with hm | hm <;> rw [hm]
    · unfold fileDescWireFormatContainingSymbol
      rw [ht]
      simp only
      rw [hm]
      simp only
      rw [hdec]

/-- C5 counterexample to the claim as stated: for `"badsvc"` both the
type-name path and the metadata path fail to yield a file descriptor
(the metadata blob exists but does not decode), yet the result is the
decode error, not the unknown-symbol error. -/
theorem symbol_unknown_error_counterexample :
    (typeForName demoEnv initState "badsvc").1
      = .error ("unknown type: " ++ "badsvc") ∧
    demoEnv.metadata "badsvc" = some (.bytes [12]) ∧
    (fileDescWireFormatContainingSymbol demoEnv initState "badsvc").1
      = .error ("bad descriptor: " ++ "cannot parse") ∧
    ("bad descriptor: " ++ "cannot parse") ≠ ("unknown symbol: " ++ "badsvc") :=
  ⟨rfl, rfl, rfl, by decide⟩

/-- Closed witness for C5 (amended) at a name with no metadata at all
and at the name whose metadata blob fails to decode. -/
theorem symbol_resolution_order_witness :
    fileDescWireFormatContainingSymbol demoEnv initState "ghost"
      = (.error ("unknown symbol: " ++ "ghost"), initState) ∧
    fileDescWireFormatContainingSymbol demoEnv initState "badsvc"
      = (.error ("bad descriptor: " ++ "cannot parse"), initState) := by
  have t1 := symbol_resolution_order demoEnv initState "ghost"
  have t2 := symbol_resolution_order demoEnv initState "badsvc"
  exact ⟨(t1.2 ("unknown type: " ++ "ghost") rfl).1 (Or.inl rfl),
         (t2.2 ("unknown type: " ++ "badsvc") rfl).2 [12]
           ("bad descriptor: " ++ "cannot parse") rfl rfl⟩

/-! ### C6: unmatched extension numbers are errors, matches resolve -/

/-- C6: for a message type, a requested extension number matching none
of the registered extensions makes `fileDescContainingExtension` return
the extension-not-found error with no descriptor and an unchanged state
(in particular never an empty or partial success; for a non-message
type the call also returns an error with no descriptor); and when a
registered extension carries the requested number, the call resolves the
extension value type to a file descriptor through the
cache-or-`fileDescForType` path. -/
theorem fileDescContainingExtension_not_found (env : Env) (s : SrvState)
    (st : RType) (ext : Int) :
    ((∀ p ∈ env.registeredExtensions st, p.1 ≠ ext) →
      ∃ e, fileDescContainingExtension env s st ext = (.error e, s)) ∧
    (env.asProtoMessage st = true →
      ((∀ p ∈ env.registeredExtensions st, p.1 ≠ ext) →
        fileDescContainingExtension env s st ext =
          (.error ("failed to find registered extension for extension number "
                    ++ toString ext), s)) ∧
      (∀ eid extT,
        (env.registeredExtensions st).find? (fun p => p.1 == ext) = some (eid, extT) →
        fileDescContainingExtension env s st ext =
          match mapLookup extT s.typeToFileDescMap with
          | some fd => (.ok fd, s)
          | none =>
            match fileDescForType env s extT with
            | (.ok (fd, _), s') => (.ok fd, s')
            | (.error e, s') => (.error e, s'))) := by
  have hfind : (∀ p ∈ env.registeredExtensions st, p.1 ≠ ext) →
      (env.registeredExtensions st).find? (fun p => p.1 == ext) = none := by
    intro hno
    rw [List.find?_eq_none]
    intro x hx
    simp only [beq_iff_eq]
    exact hno x hx
  constructor
  · intro hno
    rcases hB : env.asProtoMessage st with _ | _
    · exact ⟨"failed to create message from type: " ++ toString st,
        by simp [fileDescContainingExtension, hB]⟩
    · exact ⟨"failed to find registered extension for extension number "
          ++ toString ext,
        by simp [fileDescContainingExtension, hB, hfind hno]⟩
  · intro hm
    constructor
    · intro hno
      simp [fileDescContainingExtension, hm, hfind hno]
    · intro eid extT hf
      simp only [fileDescContainingExtension, hm, if_true]
      rw [hf]

/-- Closed witness for C6: type `1` of the concrete environment has no
extension numbered `999`. -/
theorem fileDescContainingExtension_not_found_witness :
    (∃ e, fileDescContainingExtension demoEnv initState 1 999 = (.error e, initState)) ∧
    fileDescContainingExtension demoEnv initState 1 999 =
      (.error ("failed to find registered extension for extension number "
                ++ toString (999 : Int)), initState) := by
  have t := fileDescContainingExtension_not_found demoEnv initState 1 999
  have hno : ∀ p ∈ demoEnv.registeredExtensions 1, p.1 ≠ (999 : Int) := by decide
  exact ⟨t.1 hno, (t.2 (by decide)).1 hno⟩

/-! ### C9: consistency of the two name-mapping caches -/

/-- The registry name lookup never maps two distinct names to the same
type.  (True of a protobuf registry in which every type is registered
under one fully-qualified name; not forced by the code.) -/
def MTInjective (env : Env) : Prop :=
  ∀ n1 n2 t, env.messageType n1 = some t → env.messageType n2 = some t → n1 = n2

/-- Internal consistency of the two name caches, provable at every
reachable state with no assumption on the registry: every cached
name-to-type entry agrees with the registry; every type-to-name entry
maps back; and every name-to-type entry has a companion type-to-name
entry that maps back. -/
def CacheInv (env : Env) (s : SrvState) : Prop :=
  (∀ n t, mapLookup n s.nameToTypeMap = some t → env.messageType n = some t) ∧
  (∀ t n, mapLookup t s.typeToNameMap = some n →
    mapLookup n s.nameToTypeMap = some t) ∧
  (∀ n t, mapLookup n s.nameToTypeMap = some t →
    ∃ n', mapLookup t s.typeToNameMap = some n' ∧
      mapLookup n' s.nameToTypeMap = some t)

/-- Every cache entry observable in `s` is still observable, with the
same value, in `s'`; for the type-to-name map this is guaranteed only
under an injective registry. -/
def MapsPreserved (env : Env) (s s' : SrvState) : Prop :=
  (∀ n t, mapLookup n s.nameToTypeMap = some t →
    mapLookup n s'.nameToTypeMap = some t) ∧
  (∀ t fd, mapLookup t s.typeToFileDescMap = some fd →
    mapLookup t s'.typeToFileDescMap = some fd) ∧
  (MTInjective env → ∀ t n, mapLookup t s.typeToNameMap = some n →
    mapLookup t s'.typeToNameMap = some n)

/-- A step from `s` to `s'` keeps the cache invariant and preserves
existing entries. -/
def Preserves (env : Env) (s s' : SrvState) : Prop :=
  CacheInv env s → CacheInv env s' ∧ MapsPreserved env s s'

theorem preserves_refl (env : Env) (s : SrvState) : Preserves env s s :=
  fun inv => ⟨inv, fun _ _ h => h, fun _ _ h => h, fun _ _ _ h => h⟩

theorem preserves_trans {env : Env} {s1 s2 s3 : SrvState}
    (h1 : Preserves env s1 s2) (h2 : Preserves env s2 s3) :
    Preserves env s1 s3 := by
  intro inv
  obtain ⟨inv2, mp12⟩ := h1 inv
  obtain ⟨inv3, mp23⟩ := h2 inv2
  refine ⟨inv3, fun n t h => mp23.1 n t (mp12.1 n t h),
    fun t fd h => mp23.2.1 t fd (mp12.2.1 t fd h),
    fun hinj t n h => mp23.2.2 hinj t n (mp12.2.2 hinj t n h)⟩

/-- Inserting a file-descriptor entry that is fresh, or equal to the
entry already present, is a preserving step. -/
theorem preserves_fdInsert (env : Env) (s : SrvState) (st : RType)
    (fd : FileDescriptorProto)
    (h : mapLookup st s.typeToFileDescMap = none ∨
         mapLookup st s.typeToFileDescMap = some fd) :
    Preserves env s
      { s with typeToFileDescMap := mapInsert st fd s.typeToFileDescMap } := by
  intro inv
  refine ⟨inv, fun n t h' => h', fun t fd' h' => ?_, fun _ t n h' => h'⟩
  simp only [mapInsert, mapLookup_cons]
  by_cases he : t = st
  · subst he
    rcases h with h | h
    · rw [h'] at h
      exact absurd h (by simp)
    · rw [h'] at h
      rw [if_pos rfl, Option.some.inj h]
  · rw [if_neg he]
    exact h'

/-- The matched-pair insertion performed by `typeForName` on a cache
miss with a successful registry lookup is a preserving step.  Only the
type-to-name component of preservation needs the injective registry;
everything else is unconditional. -/
theorem preserves_pairInsert (env : Env) (s : SrvState) (name : String) (st : RType)
    (hmiss : mapLookup name s.nameToTypeMap = none)
    (hmt : env.messageType name = some st) :
    Preserves env s
      { s with typeToNameMap := mapInsert st name s.typeToNameMap,
               nameToTypeMap := mapInsert name st s.nameToTypeMap } := by
  intro inv
  obtain ⟨i2, i3, i4⟩ := inv
  refine ⟨⟨?_, ?_, ?_⟩, ?_, fun t fd h => h, ?_⟩
  · -- registry agreement
    intro n t h
    simp only [mapInsert, mapLookup_cons] at h
    by_cases he : n = name
    · rw [if_pos he] at h
      rw [he, ← Option.some.inj h]
      exact hmt
    · rw [if_neg he] at h
      exact i2 n t h
  · -- type-to-name entries map back
    intro t n h
    simp only [mapInsert, mapLookup_cons] at h ⊢
    by_cases he : t = st
    · rw [if_pos he] at h
      rw [if_pos (Option.some.inj h).symm, he]
    · rw [if_neg he] at h
      have hnt := i3 t n h
      by_cases hn : n = name
      · rw [hn] at hnt
        rw [hmiss] at hnt
        exact absurd hnt (by simp)
      · rw [if_neg hn]
        exact hnt
  · -- name-to-type entries have a companion
    intro n t h
    simp only [mapInsert, mapLookup_cons] at h ⊢
    by_cases he : n = name
    · rw [if_pos he] at h
      refine ⟨name, ?_, ?_⟩
      · rw [← Option.some.inj h, if_pos rfl]
      · rw [if_pos rfl]
        exact h
    · rw [if_neg he] at h
      obtain ⟨n', htn, hnt⟩ := i4 n t h
      by_cases ht : t = st
      · refine ⟨name, ?_, ?_⟩
        · rw [if_pos ht]
        · rw [if_pos rfl, ht]
      · refine ⟨n', ?_, ?_⟩
        · rw [if_neg ht]
          exact htn
        · by_cases hn : n' = name
          · rw [hn] at hnt
            rw [hmiss] at hnt
            exact absurd hnt (by simp)
          · rw [if_neg hn]
            exact hnt
  · -- existing name-to-type lookups preserved
    intro n t h
    simp only [mapInsert, mapLookup_cons]
    by_cases he : n = name
    · rw [he] at h
      rw [hmiss] at h
      exact absurd h (by simp)
    · rw [if_neg he]
      exact h
  · -- existing type-to-name lookups preserved, under injectivity
    intro hinj t n h
    simp only [mapInsert, mapLookup_cons]
    by_cases he : t = st
    · have hnt := i3 t n h
      have hmn := i2 n t hnt
      rw [he] at hmn
      have hn : n = name := hinj n name st hmn hmt
      rw [hn] at hnt
      rw [hmiss] at hnt
      exact absurd hnt (by simp)
    · rw [if_neg he]
      exact h

/-- `fileDescForType` is a preserving step. -/
theorem fileDescForType_preserves (env : Env) (s : SrvState) (st : RType) :
    Preserves env s (fileDescForType env s st).2 := by
  unfold fileDescForType
  split
  · exact preserves_refl env s
  · split
    · exact preserves_refl env s
    · rename_i hlook
      split
      · exact preserves_refl env s
      · rename_i fd hdec
        exact preserves_fdInsert env s st fd (Or.inl hlook)

/-- `typeForName` is a preserving step. -/
theorem typeForName_preserves (env : Env) (s : SrvState) (name : String) :
    Preserves env s (typeForName env s name).2 := by
  unfold typeForName
  split
  · exact preserves_refl env s
  · rename_i hmiss
    split
    · exact preserves_refl env s
    · rename_i st hmt
      have p1 := preserves_pairInsert env s name st hmiss hmt
      split
      · rename_i fd idxs s2 hf
        have p2 := fileDescForType_preserves env
          { s with typeToNameMap := mapInsert st name s.typeToNameMap,
                   nameToTypeMap := mapInsert name st s.nameToTypeMap } st
        rw [hf] at p2
        obtain ⟨enc, hdo, hfd⟩ := fileDescForType_ok env _ st fd idxs s2 hf
        have p3 := preserves_fdInsert env s2 st fd (Or.inr hfd)
        exact preserves_trans (preserves_trans p1 p2) p3
      · rename_i e s2 hf
        have p2 := fileDescForType_preserves env
          { s with typeToNameMap := mapInsert st name s.typeToNameMap,
                   nameToTypeMap := mapInsert name st s.nameToTypeMap } st
        rw [hf] at p2
        exact preserves_trans p1 p2

/-- `fileDescContainingExtension` is a preserving step. -/
theorem fileDescContainingExtension_preserves (env : Env) (s : SrvState)
    (st : RType) (ext : Int) :
    Preserves env s (fileDescContainingExtension env s st ext).2 := by
  unfold fileDescContainingExtension
  split
  · split
    · exact preserves_refl env s
    · split
      · exact preserves_refl env s
      · rename_i eid extT hfind xscr hlook
        split
        · rename_i fd idxs s' hf
          have p := fileDescForType_preserves env s extT
          rw [hf] at p
          exact p
        · rename_i e s' hf
          have p := fileDescForType_preserves env s extT
          rw [hf] at p
          exact p
  · exact preserves_refl env s

/-- `allExtensionNumbersForType` never changes the state. -/
theorem allExtensionNumbersForType_state (env : Env) (s : SrvState) (st : RType) :
    (allExtensionNumbersForType env s st).2 = s := by
  unfold allExtensionNumbersForType
  split <;> rfl

/-- `fileDescWireFormatByFilename` never changes the state. -/
theorem fileDescWireFormatByFilename_state (env : Env) (s : SrvState) (name : String) :
    (fileDescWireFormatByFilename env s name).2 = s := by
  unfold fileDescWireFormatByFilename
  repeat' split
  all_goals rfl

/-- `fileDescWireFormatContainingSymbol` is a preserving step. -/
theorem fileDescWireFormatContainingSymbol_preserves (env : Env) (s : SrvState)
    (name : String) :
    Preserves env s (fileDescWireFormatContainingSymbol env s name).2 := by
  unfold fileDescWireFormatContainingSymbol
  split
  · rename_i st s1 ht
    have p1 := typeForName_preserves env s name
    rw [ht] at p1
    split
    · rename_i e s2 hf
      have p2 := fileDescForType_preserves env s1 st
      rw [hf] at p2
      exact preserves_trans p1 p2
    · rename_i fd idxs s2 hf
      have p2 := fileDescForType_preserves env s1 st
      rw [hf] at p2
      split
      · exact preserves_trans p1 p2
      · exact preserves_trans p1 p2
  · rename_i e s1 ht
    have p1 := typeForName_preserves env s name
    rw [ht] at p1
    split
    · split
      · exact p1
      · split
        · exact p1
        · exact p1
    · exact p1
    · exact p1

/-- `fileDescWireFormatContainingExtension` is a preserving step. -/
theorem fileDescWireFormatContainingExtension_preserves (env : Env) (s : SrvState)
    (typeName : String) (extNum : Int) :
    Preserves env s (fileDescWireFormatContainingExtension env s typeName extNum).2 := by
  unfold fileDescWireFormatContainingExtension
  split
  · rename_i e s1 ht
    have p1 := typeForName_preserves env s typeName
    rw [ht] at p1
    exact p1
  · rename_i st s1 ht
    have p1 := typeForName_preserves env s typeName
    rw [ht] at p1
    split
    · rename_i e s2 hx
      have p2 := fileDescContainingExtension_preserves env s1 st extNum
      rw [hx] at p2
      exact preserves_trans p1 p2
    · rename_i fd s2 hx
      have p2 := fileDescContainingExtension_preserves env s1 st extNum
      rw [hx] at p2
      split
      · exact preserves_trans p1 p2
      · exact preserves_trans p1 p2

/-- `allExtensionNumbersForTypeName` is a preserving step. -/
theorem allExtensionNumbersForTypeName_preserves (env : Env) (s : SrvState)
    (name : String) :
    Preserves env s (allExtensionNumbersForTypeName env s name).2 := by
  unfold allExtensionNumbersForTypeName
  split
  · rename_i e s1 ht
    have p1 := typeForName_preserves env s name
    rw [ht] at p1
    exact p1
  · rename_i st s1 ht
    have p1 := typeForName_preserves env s name
    rw [ht] at p1
    split
    · rename_i e s2 hx
      have hst := allExtensionNumbersForType_state env s1 st
      rw [hx] at hst
      rw [← hst] at p1
      exact p1
    · rename_i extNums s2 hx
      have hst := allExtensionNumbersForType_state env s1 st
      rw [hx] at hst
      rw [← hst] at p1
      exact p1

/-- Dispatching one inbound request is a preserving step. -/
theorem handleRequest_preserves (env : Env) (s : SrvState)
    (inp : ServerReflectionRequest) :
    Preserves env s (handleRequest env s inp).2 := by
  unfold handleRequest
  rcases inp with ⟨host, mr⟩
  cases mr
  case fileByFilename name =>
    simp only
    split
    · rename_i e s' hx
      have hst := fileDescWireFormatByFilename_state env s name
      rw [hx] at hst
      rw [hst]
      exact preserves_refl env s
    · rename_i b s' hx
      have hst := fileDescWireFormatByFilename_state env s name
      rw [hx] at hst
      rw [hst]
      exact preserves_refl env s
  case fileContainingSymbol name =>
    simp only
    split
    · rename_i e s' hx
      have p := fileDescWireFormatContainingSymbol_preserves env s name
      rw [hx] at p
      exact p
    · rename_i b s' hx
      have p := fileDescWireFormatContainingSymbol_preserves env s name
      rw [hx] at p
      exact p
  case fileContainingExtension typeName extNum =>
    simp only
    split
    · rename_i e s' hx
      have p := fileDescWireFormatContainingExtension_preserves env s typeName extNum
      rw [hx] at p
      exact p
    · rename_i b s' hx
      have p := fileDescWireFormatContainingExtension_preserves env s typeName extNum
      rw [hx] at p
      exact p
  case allExtensionNumbersOfType name =>
    simp only
    split
    · rename_i e s' hx
      have p := allExtensionNumbersForTypeName_preserves env s name
      rw [hx] at p
      exact p
    · rename_i extNums s' hx
      have p := allExtensionNumbersForTypeName_preserves env s name
      rw [hx] at p
      exact p
  case listServices =>
    exact preserves_refl env s
  case unrecognized =>
    exact preserves_refl env s

/-- The cache states reachable from the freshly installed server by
dispatching inbound requests. -/
inductive Reachable (env : Env) : SrvState → Prop
  | init : Reachable env initState
  | step (s : SrvState) (req : ServerReflectionRequest) :
      Reachable env s → Reachable env (handleRequest env s req).2

/-- The cache invariant holds at every reachable state. -/
theorem reachable_cacheInv (env : Env) (s : SrvState) (hs : Reachable env s) :
    CacheInv env s := by
  induction hs with
  | init =>
    refine ⟨fun n t h => ?_, fun t n h => ?_, fun n t h => ?_⟩ <;>
      exact absurd h (by simp [initState])
  | step s req _ ih =>
    exact (handleRequest_preserves env s req ih).1

/-- C9 (amended): the two name caches are mutually consistent at every
reachable state: entries enter them only as the matched pair written by
`typeForName`, every `typeToNameMap` entry `t -> n` has `nameToTypeMap`
mapping `n` back to `t`, and — provided the registry never maps two
distinct names to the same type — every `nameToTypeMap` entry `n -> t`
has `typeToNameMap` mapping `t` back to `n`; moreover one further
dispatch step never removes or rewrites an observable entry of
`nameToTypeMap` or `typeToFileDescMap`, nor, under the same injectivity
proviso, of `typeToNameMap`. -/
theorem cache_pair_consistency (env : Env) (s : SrvState) (hs : Reachable env s) :
    (∀ t n, mapLookup t s.typeToNameMap = some n →
      mapLookup n s.nameToTypeMap = some t) ∧
    (MTInjective env → ∀ n t, mapLookup n s.nameToTypeMap = some t →
      mapLookup t s.typeToNameMap = some n) ∧
    (∀ req, MapsPreserved env s (handleRequest env s req).2) := by
  have inv := reachable_cacheInv env s hs
  obtain ⟨i2, i3, i4⟩ := inv
  refine ⟨i3, fun hinj n t h => ?_,
    fun req => (handleRequest_preserves env s req ⟨i2, i3, i4⟩).2⟩
  obtain ⟨n', htn, hnt⟩ := i4 n t h
  have he : n' = n := hinj n' n t (i2 n' t hnt) (i2 n t h)
  rw [he] at htn
  exact htn

/-- A registry that maps the two distinct names `"a"` and `"b"` to the
same type identity `1`; everything else as in the concrete demo
environment. -/
def nonInjEnv : Env where
  messageType := fun n => if n = "a" then some 1 else if n = "b" then some 1 else none
  descriptorOf := fun t => if t = 1 then some ([10], [0]) else none
  asProtoMessage := fun _ => false
  registeredExtensions := fun _ => []
  fileDescriptorEnc := fun _ => none
  metadata := fun _ => none
  gunzip := fun b => if b = [10] then some [11] else none
  unmarshal := fun b => if b = [11] then .ok 42 else .error "cannot parse"
  marshal := fun fd => .ok [fd]

/-- The state after a symbol lookup of `"a"` against `nonInjEnv`. -/
def stateA : SrvState :=
  (handleRequest nonInjEnv initState ⟨"h", .fileContainingSymbol "a"⟩).2

/-- The state after symbol lookups of `"a"` and then `"b"` against
`nonInjEnv`. -/
def stateAB : SrvState :=
  (handleRequest nonInjEnv stateA ⟨"h", .fileContainingSymbol "b"⟩).2

/-- C9 counterexample to the claim as stated: at the reachable state
after resolving `"a"` and then `"b"` (two names the registry sends to
the same type `1`), `nameToTypeMap` still maps `"a"` to `1` but
`typeToNameMap` maps `1` to `"b"`, not back to `"a"`; and the second
lookup rewrote the existing `typeToNameMap` entry of `1`, which the
claim says never happens. -/
theorem cache_pair_consistency_counterexample :
    Reachable nonInjEnv stateAB ∧
    mapLookup "a" stateAB.nameToTypeMap = some 1 ∧
    mapLookup 1 stateAB.typeToNameMap = some "b" ∧
    mapLookup 1 stateA.typeToNameMap = some "a" ∧
    some "b" ≠ some "a" :=
  ⟨Reachable.step stateA ⟨"h", .fileContainingSymbol "b"⟩
     (Reachable.step initState ⟨"h", .fileContainingSymbol "a"⟩ Reachable.init),
   rfl, rfl, rfl, by decide⟩

/-- The state after a symbol lookup of `"pkg.M"` in the concrete demo
environment. -/
def stateM : SrvState :=
  (handleRequest demoEnv initState ⟨"h", .fileContainingSymbol "pkg.M"⟩).2

/-- Closed witness for C9 (amended) at the reachable state that has
cached `"pkg.M"`. -/
theorem cache_pair_consistency_witness :
    mapLookup "pkg.M" stateM.nameToTypeMap = some 1 :=
  (cache_pair_consistency demoEnv stateM
      (Reachable.step initState ⟨"h", .fileContainingSymbol "pkg.M"⟩
        Reachable.init)).1 1 "pkg.M" rfl

end ServerReflection
